import Mathlib

/-!
Verification of `src/maaf/models/composition_models.py` (image + text
composition models).

Shallow embedding conventions:
* An embedding tensor of shape `[batch, seq, dim]` is a function
  `Fin B → Fin S → Fin D → ℚ`; a pooled vector `[batch, dim]` is
  `Fin B → Fin D → ℚ`.  Exact rational arithmetic stands in for the
  floating-point tensor values; every operation below is a composition of
  additions, multiplications and divisions that the source performs
  elementwise, so the algebra is the same.
* A mask of shape `[batch, seq]` is `Fin B → Fin S → ℤ` (the source keeps
  masks as integer tensors and tests them with `== 0` / `!= 0`).
* An absent modality (Python `None`) is `Option.none`.
* A Python `AssertionError` / `RuntimeError` is `Except.error` with the
  message text.
* The encoder stack (`Encoder`, `MultiHeadedAttention`, ... imported from
  the sibling `transformer` module), the image backbone, the text backbone
  and `Dropout` are external collaborators of this file; they appear as
  function parameters, exactly as `compose` receives them through
  `self.model`, `self.image_model`, `self.text_model`, `self.dropout`.
-/

/-- `[batch, dim]` tensor. -/
abbrev Tensor2 (B D : ℕ) : Type := Fin B → Fin D → ℚ

/-- `[batch, seq, dim]` tensor. -/
abbrev Tensor3 (B S D : ℕ) : Type := Fin B → Fin S → Fin D → ℚ

/-- `[batch, seq]` integer mask tensor. -/
abbrev Mask (B S : ℕ) : Type := Fin B → Fin S → ℤ

namespace Addition

/-- `Addition.compose` (composition_models.py lines 160-168):

    if img_emb is None:
        assert text_emb is not None, "No images or text available"
        return text_emb
    elif text_emb is None:
        return img_emb
    return img_emb + text_emb
-/
def compose {B D : ℕ} (img_emb text_emb : Option (Tensor2 B D)) :
    Except String (Tensor2 B D) :=
  match img_emb with
  | none =>
      match text_emb with
      | none => Except.error "No images or text available"
      | some tt => Except.ok tt
  | some ii =>
      match text_emb with
      | none => Except.ok ii
      | some tt => Except.ok (fun b d => ii b d + tt b d)

end Addition

/-- C1: `Addition.compose` returns the other modality when one is absent and
the exact elementwise sum when both are present. -/
theorem addition_compose_spec {B D : ℕ} (a b : Tensor2 B D) :
    Addition.compose none (some b) = Except.ok b ∧
    Addition.compose (some a) none = Except.ok a ∧
    Addition.compose (some a) (some b) =
      Except.ok (fun i d => a i d + b i d) := by
  refine ⟨rfl, rfl, rfl⟩

/-- C2: `Addition.compose` fails with the assertion message
"No images or text available" exactly when both modalities are absent; with
at least one modality present it returns a value. -/
theorem addition_compose_error_iff {B D : ℕ}
    (img_emb text_emb : Option (Tensor2 B D)) :
    ((∃ e, Addition.compose img_emb text_emb = Except.error e) ↔
      img_emb = none ∧ text_emb = none) ∧
    Addition.compose (B := B) (D := D) none none =
      Except.error "No images or text available" := by
  constructor
  · constructor
    · intro ⟨e, he⟩
      cases img_emb with
      | none =>
          cases text_emb with
          | none => exact ⟨rfl, rfl⟩
          | some tt => simp [Addition.compose] at he
      | some ii =>
          cases text_emb with
          | none => simp [Addition.compose] at he
          | some tt => simp [Addition.compose] at he
    · rintro ⟨rfl, rfl⟩
      exact ⟨"No images or text available", rfl⟩
  · rfl

/-- `pool_text` (composition_models.py lines 311-320, identical code at
lines 145-154):

    xx = xx.transpose(-2, -1)
    xx = xx.masked_fill(text_mask.unsqueeze(1) == 0, 0.)
    denominators = (text_mask != 0).sum(1)
    denominators = denominators.float().unsqueeze(1)
    return torch.sum(xx, -1).view(-1, embed_dim) / denominators

(after the transpose `xx` has shape `[batch, dim, tokens]`; the final
`.view(-1, embed_dim)` is the identity on a `[batch, dim]` tensor). -/
def pool_text {B T D : ℕ} (xx : Tensor3 B T D) (text_mask : Mask B T) :
    Tensor2 B D :=
  let xxT : Fin B → Fin D → Fin T → ℚ := fun b d t => xx b t d
  let filled : Fin B → Fin D → Fin T → ℚ :=
    fun b d t => if text_mask b t = 0 then 0 else xxT b d t
  let denominators : Fin B → ℚ :=
    fun b => ((Finset.univ.filter fun t => text_mask b t ≠ 0).card : ℚ)
  fun b d => (∑ t, filled b d t) / denominators b

/-- C3: on any batch whose rows each have an unmasked position, `pool_text`
is, per batch row and feature dimension, the sum of the embedding entries at
nonzero-mask positions divided by the count of nonzero-mask positions, and
it is unchanged (exactly) when the embedding is modified only at zero-mask
positions. -/
theorem pool_text_masked_mean {B T D : ℕ} (xx xx2 : Tensor3 B T D)
    (text_mask : Mask B T)
    (_hvalid : ∀ b : Fin B, ∃ t : Fin T, text_mask b t ≠ 0)
    (hagree : ∀ b t d, text_mask b t ≠ 0 → xx b t d = xx2 b t d) :
    (∀ b d, pool_text xx text_mask b d =
      (∑ t ∈ Finset.univ.filter fun t => text_mask b t ≠ 0, xx b t d) /
        ((Finset.univ.filter fun t => text_mask b t ≠ 0).card : ℚ)) ∧
    pool_text xx text_mask = pool_text xx2 text_mask := by
  have key : ∀ (yy : Tensor3 B T D) (b : Fin B) (d : Fin D),
      pool_text yy text_mask b d =
        (∑ t ∈ Finset.univ.filter fun t => text_mask b t ≠ 0, yy b t d) /
          ((Finset.univ.filter fun t => text_mask b t ≠ 0).card : ℚ) := by
    intro yy b d
    simp only [pool_text, Finset.sum_filter]
    congr 1
    refine Finset.sum_congr rfl fun t _ => ?_
    by_cases h : text_mask b t = 0 <;> simp [h]
  refine ⟨fun b d => key xx b d, funext fun b => funext fun d => ?_⟩
  rw [key xx b d, key xx2 b d]
  congr 1
  exact Finset.sum_congr rfl fun t ht =>
    hagree b t d (Finset.mem_filter.mp ht).2

def sampleText : Tensor3 1 2 1 := fun _ t _ => if t.1 = 0 then 3 else 5

def sampleTextAlt : Tensor3 1 2 1 := fun _ t _ => if t.1 = 0 then 3 else 7

def sampleMask : Mask 1 2 := fun _ t => if t.1 = 0 then 1 else 0

/-- Witness for C3 at a concrete input: batch 1, two tokens (second one
masked), the two embeddings differing only at the masked token. -/
theorem pool_text_masked_mean_witness :
    ((∀ b : Fin 1, ∃ t : Fin 2, sampleMask b t ≠ 0) ∧
      (∀ b t d, sampleMask b t ≠ 0 → sampleText b t d = sampleTextAlt b t d)) ∧
    ((∀ b d, pool_text sampleText sampleMask b d =
      (∑ t ∈ Finset.univ.filter fun t => sampleMask b t ≠ 0,
          sampleText b t d) /
        ((Finset.univ.filter fun t => sampleMask b t ≠ 0).card : ℚ)) ∧
    pool_text sampleText sampleMask = pool_text sampleTextAlt sampleMask) :=
  ⟨⟨by decide, by decide⟩,
    pool_text_masked_mean sampleText sampleTextAlt sampleMask
      (by decide) (by decide)⟩

/-- C4: with an all-ones mask (no padding), `pool_text` is the plain
arithmetic mean over the sequence axis. -/
theorem pool_text_all_ones {B T D : ℕ} (xx : Tensor3 B T D)
    (text_mask : Mask B T) (hones : ∀ b t, text_mask b t = 1) :
    ∀ b d, pool_text xx text_mask b d = (∑ t, xx b t d) / (T : ℚ) := by
  intro b d
  have hfilter : (Finset.univ.filter fun t => text_mask b t ≠ 0) =
      (Finset.univ : Finset (Fin T)) := by
    refine Finset.filter_true_of_mem fun t _ => ?_
    rw [hones b t]
    decide
  simp only [pool_text, hfilter, Finset.card_univ, Fintype.card_fin]
  congr 1
  refine Finset.sum_congr rfl fun t _ => ?_
  rw [hones b t]
  simp

def sampleOnesMask : Mask 1 2 := fun _ _ => 1

/-- Witness for C4 at a concrete input. -/
theorem pool_text_all_ones_witness :
    (∀ b t, sampleOnesMask b t = 1) ∧
    (∀ b d, pool_text sampleText sampleOnesMask b d =
      (∑ t, sampleText b t d) / ((2 : ℕ) : ℚ)) :=
  ⟨by decide, pool_text_all_ones sampleText sampleOnesMask (by decide)⟩

/-- `MAAF.pool_image` (composition_models.py lines 305-309): with the
`"rwpool"` output mode it dispatches to the external
`image_model.resolutionwise_pool`; any other mode takes the mean over the
sequence axis. -/
def pool_image {B D : ℕ} (output : String)
    (resolutionwise_pool : ∀ {S : ℕ}, Tensor3 B S D → Tensor2 B D)
    {S : ℕ} (xx : Tensor3 B S D) : Tensor2 B D :=
  if output = "rwpool" then resolutionwise_pool xx
  else fun b d => (∑ s, xx b s d) / (S : ℚ)

/-- `torch.mean(torch.stack(final_embs), 0)` (line 303) on a list of
`[batch, dim]` tensors: the elementwise mean across the stacked list. -/
def meanStack {B D : ℕ} (l : List (Tensor2 B D)) : Tensor2 B D :=
  fun b d => (l.map fun t => t b d).sum / (l.length : ℚ)

/-- `torch.cat(embeddings, 1)` (line 288) for the both-modalities case:
image embedding first, text embedding second, along the sequence axis. -/
def maafConcatFeatures {B P T D : ℕ} (img : Tensor3 B P D)
    (text : Tensor3 B T D) : Tensor3 B (P + T) D :=
  fun b => Fin.append (img b) (text b)

/-- `torch.cat(masks, 1)` (line 289) for the both-modalities case. -/
def maafConcatMask {B P T : ℕ} (img_mask : Mask B P) (text_mask : Mask B T) :
    Mask B (P + T) :=
  fun b => Fin.append (img_mask b) (text_mask b)

/-- `MAAF.compose` (composition_models.py lines 273-303).  `model` is
`self.model` (the encoder stack, optionally wrapped in a positional
encoder), applied at whatever sequence length the concatenation has;
`resolutionwise_pool` is the backbone hook used by `pool_image`.  The image
mask is `torch.ones(...)` (line 278); `composed[:, :img_emb.shape[1]]` is
the first-`P` slice and `composed[:, -text_emb.shape[1]:]` the last-`T`
slice (lines 294, 299), both taken at the pre-encoder segment lengths.
`torch.cat` of an empty list (both modalities absent) raises. -/
def maafCompose {B P T D : ℕ}
    (model : ∀ {S : ℕ}, Tensor3 B S D → Mask B S → Tensor3 B S D)
    (output : String)
    (resolutionwise_pool : ∀ {S : ℕ}, Tensor3 B S D → Tensor2 B D)
    (img_emb : Option (Tensor3 B P D))
    (text_emb : Option (Tensor3 B T D × Mask B T)) :
    Except String (Tensor2 B D) :=
  match img_emb, text_emb with
  | none, none => Except.error "expected a non-empty list of Tensors"
  | some img, none =>
      let img_mask : Mask B P := fun _ _ => 1
      let composed := model img img_mask
      Except.ok (meanStack [pool_image output resolutionwise_pool composed])
  | none, some (text, text_mask) =>
      let composed := model text text_mask
      Except.ok (meanStack [pool_text composed text_mask])
  | some img, some (text, text_mask) =>
      let img_mask : Mask B P := fun _ _ => 1
      let composed :=
        model (maafConcatFeatures img text) (maafConcatMask img_mask text_mask)
      let mod_im_feat : Tensor3 B P D :=
        fun b p d => composed b (Fin.castAdd T p) d
      let mod_text_feat : Tensor3 B T D :=
        fun b t d => composed b (Fin.natAdd P t) d
      Except.ok (meanStack
        [pool_image output resolutionwise_pool mod_im_feat,
          pool_text mod_text_feat text_mask])

/-- C5: with both modalities present, `MAAF.compose` concatenates
image-first then text (masks identically, the image mask all ones), and
recovers the image segment as the first `P` positions and the text segment
as the last `T` positions of the encoder output, where `P` and `T` are the
pre-encoder segment lengths — the statement is uniform in `text_mask`, so
padding inside the text segment cannot move the slice boundaries. -/
theorem maaf_compose_concat_and_slices {B P T D : ℕ}
    (model : ∀ {S : ℕ}, Tensor3 B S D → Mask B S → Tensor3 B S D)
    (output : String)
    (resolutionwise_pool : ∀ {S : ℕ}, Tensor3 B S D → Tensor2 B D)
    (img : Tensor3 B P D) (text : Tensor3 B T D) (text_mask : Mask B T) :
    (∀ b p d, maafConcatFeatures img text b (Fin.castAdd T p) d = img b p d) ∧
    (∀ b t d, maafConcatFeatures img text b (Fin.natAdd P t) d = text b t d) ∧
    (∀ b p, maafConcatMask ((fun _ _ => 1 : Mask B P)) text_mask b (Fin.castAdd T p) = 1) ∧
    (∀ b t, maafConcatMask ((fun _ _ => 1 : Mask B P)) text_mask b (Fin.natAdd P t) =
      text_mask b t) ∧
    maafCompose model output resolutionwise_pool
        (some img) (some (text, text_mask)) =
      Except.ok (meanStack
        [pool_image output resolutionwise_pool (fun b p d =>
          model (maafConcatFeatures img text)
              (maafConcatMask ((fun _ _ => 1 : Mask B P)) text_mask) b (Fin.castAdd T p) d),
          pool_text (fun b t d =>
            model (maafConcatFeatures img text)
              (maafConcatMask ((fun _ _ => 1 : Mask B P)) text_mask) b (Fin.natAdd P t) d)
            text_mask]) := by
  refine ⟨?_, ?_, ?_, ?_, rfl⟩
  · intro b p d
    simp [maafConcatFeatures, Fin.append_left]
  · intro b t d
    simp [maafConcatFeatures, Fin.append_right]
  · intro b p
    simp [maafConcatMask, Fin.append_left]
  · intro b t
    simp [maafConcatMask, Fin.append_right]

/-- C6: `MAAF.compose` returns the elementwise mean of the pooled segment
vectors of the present modalities: `(pooled_image + pooled_text) / 2` when
both are present, and the single pooled vector unchanged when only one is
present — in particular, image-only composition is exactly the encoder
stack run on the image sequence alone (with its all-ones mask) followed by
the image pooling, with no text branch. -/
theorem maaf_compose_mean_of_pooled {B P T D : ℕ}
    (model : ∀ {S : ℕ}, Tensor3 B S D → Mask B S → Tensor3 B S D)
    (output : String)
    (resolutionwise_pool : ∀ {S : ℕ}, Tensor3 B S D → Tensor2 B D)
    (img : Tensor3 B P D) (text : Tensor3 B T D) (text_mask : Mask B T) :
    (maafCompose model output resolutionwise_pool
        (some img) (some (text, text_mask)) =
      Except.ok (fun b d =>
        (pool_image output resolutionwise_pool (fun b p d =>
            model (maafConcatFeatures img text)
              (maafConcatMask ((fun _ _ => 1 : Mask B P)) text_mask) b
              (Fin.castAdd T p) d) b d +
          pool_text (fun b t d =>
            model (maafConcatFeatures img text)
              (maafConcatMask ((fun _ _ => 1 : Mask B P)) text_mask) b
              (Fin.natAdd P t) d) text_mask b d) / 2)) ∧
    (maafCompose model output resolutionwise_pool
        (some img) (none : Option (Tensor3 B T D × Mask B T)) =
      Except.ok (pool_image output resolutionwise_pool
        (model img (fun _ _ => 1)))) ∧
    (maafCompose model output resolutionwise_pool
        (none : Option (Tensor3 B P D)) (some (text, text_mask)) =
      Except.ok (pool_text (model text text_mask) text_mask)) := by
  refine ⟨?_, ?_, ?_⟩
  · simp only [maafCompose]
    congr 1
    funext b d
    simp [meanStack]
  · simp only [maafCompose]
    congr 1
    funext b d
    simp [meanStack]
  · simp only [maafCompose]
    congr 1
    funext b d
    simp [meanStack]

/-- The image backbone's output dict, keeping the two entries this file
reads: the attention-input view `"projections"` (`[B, P, D]`) and the
residual view `"fc"` (`[B, D]`). -/
structure ImageModelOutput (B P D : ℕ) where
  projections : Tensor3 B P D
  fc : Tensor2 B D

/-- `ResidualMAAF.compose` (composition_models.py lines 330-346): feeds the
`"projections"` view to `MAAF.compose`, then adds an `addition_feat` term
that starts at `0` and accumulates the `"fc"` image view (when images are
present) and the masked-mean pool of the raw, un-attended text embedding
(when text is present). -/
def residualMaafCompose {B P T D : ℕ}
    (model : ∀ {S : ℕ}, Tensor3 B S D → Mask B S → Tensor3 B S D)
    (output : String)
    (resolutionwise_pool : ∀ {S : ℕ}, Tensor3 B S D → Tensor2 B D)
    (img_feat : Option (ImageModelOutput B P D))
    (text_emb : Option (Tensor3 B T D × Mask B T)) :
    Except String (Tensor2 B D) :=
  let img_maaf_inputs : Option (Tensor3 B P D) :=
    match img_feat with
    | none => none
    | some f => some f.projections
  match maafCompose model output resolutionwise_pool img_maaf_inputs
      text_emb with
  | Except.error e => Except.error e
  | Except.ok maaf_feat =>
      let addition_feat : Tensor2 B D := fun b d =>
        (match img_feat with
          | none => 0
          | some f => f.fc b d) +
        (match text_emb with
          | none => 0
          | some (text, text_mask) => pool_text text text_mask b d)
      Except.ok (fun b d => maaf_feat b d + addition_feat b d)

/-- C8: `ResidualMAAF.compose` is the MAAF composition of the
`"projections"` image view plus an addition term; the addition term is the
image backbone's `"fc"` feature (when images are present) plus the
masked-mean pool of the raw text embedding (when text is present). -/
theorem residual_maaf_compose_spec {B P T D : ℕ}
    (model : ∀ {S : ℕ}, Tensor3 B S D → Mask B S → Tensor3 B S D)
    (output : String)
    (resolutionwise_pool : ∀ {S : ℕ}, Tensor3 B S D → Tensor2 B D)
    (f : ImageModelOutput B P D) (text : Tensor3 B T D)
    (text_mask : Mask B T) :
    (residualMaafCompose model output resolutionwise_pool
        (some f) (some (text, text_mask)) =
      (maafCompose model output resolutionwise_pool
          (some f.projections) (some (text, text_mask))).map
        (fun maaf_feat => fun b d =>
          maaf_feat b d + (f.fc b d + pool_text text text_mask b d))) ∧
    (residualMaafCompose model output resolutionwise_pool
        (some f) (none : Option (Tensor3 B T D × Mask B T)) =
      (maafCompose (T := T) model output resolutionwise_pool
          (some f.projections) none).map
        (fun maaf_feat => fun b d => maaf_feat b d + f.fc b d)) ∧
    (residualMaafCompose model output resolutionwise_pool
        (none : Option (ImageModelOutput B P D)) (some (text, text_mask)) =
      (maafCompose (P := P) model output resolutionwise_pool
          none (some (text, text_mask))).map
        (fun maaf_feat => fun b d =>
          maaf_feat b d + pool_text text text_mask b d)) := by
  refine ⟨rfl, ?_, ?_⟩
  · simp only [residualMaafCompose, maafCompose, Except.map]
    congr 1
    funext b d
    ring
  · simp only [residualMaafCompose, maafCompose, Except.map]
    congr 1
    funext b d
    ring

/-- `ImgTextCompositionBase.extract_img_feature` (lines 36-39):

    if all([im is None for im in imgs]):
        return None
    return list(self.image_model(imgs).values())[-1]

The image model returns a Python dict; `values_last`, supplied with the
backbone, stands for taking the last of its values. -/
def base_extract_img_feature {ι κ φ : Type}
    (image_model : List (Option ι) → κ) (values_last : κ → φ)
    (imgs : List (Option ι)) : Option φ :=
  if imgs.all Option.isNone then none
  else some (values_last (image_model imgs))

/-- `ImgTextCompositionBase.extract_text_feature` (lines 41-44). -/
def extract_text_feature {τ ψ : Type} (text_model : List (Option τ) → ψ)
    (texts : List (Option τ)) : Option ψ :=
  if texts.all Option.isNone then none
  else some (text_model texts)

/-- `MAAF.extract_img_feature` (lines 268-271): same absence test, then
`self.image_model(imgs)["projections"]`. -/
def maaf_extract_img_feature {ι : Type} {B P D : ℕ}
    (image_model : List (Option ι) → ImageModelOutput B P D)
    (imgs : List (Option ι)) : Option (Tensor3 B P D) :=
  if imgs.all Option.isNone then none
  else some (image_model imgs).projections

/-- C9: each extraction step returns `none` exactly when every element of
its input batch is `None` (uniformly in the backbone, which the all-absent
branch never consults), and otherwise returns the backbone's output — for
`MAAF.extract_img_feature`, the backbone result's `"projections"` tensor. -/
theorem extract_feature_policy {ι κ φ τ ψ : Type} {B P D : ℕ}
    (image_model : List (Option ι) → κ) (values_last : κ → φ)
    (text_model : List (Option τ) → ψ)
    (maaf_image_model : List (Option ι) → ImageModelOutput B P D)
    (imgs : List (Option ι)) (texts : List (Option τ)) :
    (base_extract_img_feature image_model values_last imgs = none ↔
      (imgs.all Option.isNone) = true) ∧
    (extract_text_feature text_model texts = none ↔
      (texts.all Option.isNone) = true) ∧
    (maaf_extract_img_feature maaf_image_model imgs = none ↔
      (imgs.all Option.isNone) = true) ∧
    (base_extract_img_feature image_model values_last imgs =
        some (values_last (image_model imgs)) ↔
      (imgs.all Option.isNone) = false) ∧
    (extract_text_feature text_model texts = some (text_model texts) ↔
      (texts.all Option.isNone) = false) ∧
    (maaf_extract_img_feature maaf_image_model imgs =
        some (maaf_image_model imgs).projections ↔
      (imgs.all Option.isNone) = false) := by
  refine ⟨?_, ?_, ?_, ?_, ?_, ?_⟩ <;>
    simp only [base_extract_img_feature, extract_text_feature,
      maaf_extract_img_feature] <;>
    rcases h : imgs.all Option.isNone <;>
    rcases h2 : texts.all Option.isNone <;>
    simp [h, h2]

/-- `TIRG.compose` (composition_models.py lines 404-410):

    if text_emb is None:
        return img_emb
    f1 = self.gated_feature_composer((img_emb, text_emb))
    f2 = self.res_info_composer((img_emb, text_emb))
    f = torch.nn.functional.sigmoid(f1) * img_emb * self.a[0] + f2 * self.a[1]
    return f

The two composer `Sequential` MLPs (concatenation, BatchNorm, ReLU, Linear
layers whose parameters live outside this file) and the transcendental
`sigmoid` are abstract parameters; `a` is the learned 4-element gain
parameter of the model (initialized to `[1.0, 10.0, 1.0, 1.0]`). -/
def tirg_compose {B D : ℕ} (sigmoid : ℚ → ℚ)
    (gated_feature_composer res_info_composer :
      Tensor2 B D × Tensor2 B D → Tensor2 B D)
    (a : Fin 4 → ℚ) (img_emb : Tensor2 B D)
    (text_emb : Option (Tensor2 B D)) : Tensor2 B D :=
  match text_emb with
  | none => img_emb
  | some text =>
      let f1 := gated_feature_composer (img_emb, text)
      let f2 := res_info_composer (img_emb, text)
      fun b d => sigmoid (f1 b d) * img_emb b d * a 0 + f2 b d * a 1

/-- C7: with text absent, `TIRG.compose` is exactly the raw image embedding
(uniformly in the gate and residual MLPs, which that branch never calls);
with text present it is
`sigmoid(gate_mlp(img, text)) * img * a[0] + residual_mlp(img, text) * a[1]`,
and components 2 and 3 of the 4-element gain vector `a` never influence the
result. -/
theorem tirg_compose_spec {B D : ℕ} (sigmoid : ℚ → ℚ)
    (gated_feature_composer res_info_composer :
      Tensor2 B D × Tensor2 B D → Tensor2 B D)
    (a : Fin 4 → ℚ) (img_emb text : Tensor2 B D) :
    (tirg_compose sigmoid gated_feature_composer res_info_composer a
      img_emb none = img_emb) ∧
    (tirg_compose sigmoid gated_feature_composer res_info_composer a
        img_emb (some text) = fun b d =>
      sigmoid (gated_feature_composer (img_emb, text) b d) * img_emb b d *
          a 0 +
        res_info_composer (img_emb, text) b d * a 1) ∧
    (∀ x y : ℚ,
      tirg_compose sigmoid gated_feature_composer res_info_composer
          (Function.update (Function.update a 2 x) 3 y) img_emb (some text) =
        tirg_compose sigmoid gated_feature_composer res_info_composer a
          img_emb (some text)) := by
  refine ⟨rfl, rfl, fun x y => ?_⟩
  simp only [tirg_compose]
  funext b d
  rw [Function.update_noteq (by decide), Function.update_noteq (by decide),
    Function.update_noteq (by decide), Function.update_noteq (by decide)]

/-- `MixedPositionalEncoder.__init__` (composition_models.py lines
178-201): the positional table `self.pos_embed` is
`torch.cat([self.learned_encodings, pe], 0)` — `L` learned rows followed by
the `M`-row fixed sinusoidal table `pe` (`max_len = 5000` at the single
construction site).  The numeric entries of both tables (Kaiming-uniform
random draws, `sin`/`cos` transcendentals in floating point) are opaque to
this exact embedding, so the tables are parameters; the properties below
are about how the table is assembled and consumed, uniformly in its
entries. -/
def mixed_pos_embed {L M D : ℕ} (learned_encodings : Fin L → Fin D → ℚ)
    (pe : Fin M → Fin D → ℚ) (i : Fin (L + M)) (d : Fin D) : ℚ :=
  if h : (i : ℕ) < L then learned_encodings ⟨(i : ℕ), h⟩ d
  else pe ⟨(i : ℕ) - L, by have hi := i.isLt; omega⟩ d

/-- `MixedPositionalEncoder.forward` (lines 203-206):

    xx = self.dropout(xx + self.pos_embed[:, :xx.size(1)])
    return self.encoder(xx, mask)

`self.pos_embed[:, :seq_len]` keeps the first `min(seq_len, L + M)` table
rows; the elementwise `+` against the `[B, S, D]` input then succeeds
exactly when that row count is `S`, i.e. when `S ≤ L + M`, and otherwise
raises a size-mismatch `RuntimeError` (the table always has
`max_len = 5000 ≥ 2` rows at its construction site, so pytorch's length-1
broadcasting can never fire).  `dropout` is the elementwise `self.dropout`
collaborator. -/
def mixed_forward {B S D L M : ℕ} (dropout : ℚ → ℚ)
    (encoder : Tensor3 B S D → Mask B S → Tensor3 B S D)
    (learned_encodings : Fin L → Fin D → ℚ) (pe : Fin M → Fin D → ℚ)
    (xx : Tensor3 B S D) (mask : Mask B S) :
    Except String (Tensor3 B S D) :=
  if h : S ≤ L + M then
    Except.ok (encoder
      (fun b s d => dropout (xx b s d +
        mixed_pos_embed learned_encodings pe (Fin.castLE h s) d))
      mask)
  else Except.error "The size of tensor a must match the size of tensor b"

/-- Modelled from the spec: the pure sinusoidal positional encoder
(`PositionalEncoding` / `PositionalEncoder`, imported from the sibling
`transformer` module, which is missing from this snapshot).  Spec section
4.4: the precomputed sinusoidal table is "added elementwise to embeddings
(broadcast over batch), followed by dropout, then passed to the Encoder";
section 9: "fail explicitly if requested sequence length exceeds table
length rather than extending it silently".  As above, the table entries are
abstract. -/
def sinusoidal_forward {B S D M : ℕ} (dropout : ℚ → ℚ)
    (encoder : Tensor3 B S D → Mask B S → Tensor3 B S D)
    (pe : Fin M → Fin D → ℚ) (xx : Tensor3 B S D) (mask : Mask B S) :
    Except String (Tensor3 B S D) :=
  if h : S ≤ M then
    Except.ok (encoder
      (fun b s d => dropout (xx b s d + pe (Fin.castLE h s) d)) mask)
  else Except.error "The size of tensor a must match the size of tensor b"

/-- C10: the mixed positional table is the construction-time concatenation
of the learned rows and the sinusoidal table, so slot `i < L` reads learned
row `i` and slot `L + k` reads sinusoidal entry `pe[k]`; `forward` adds the
first `seq_len` rows of that table (then dropout, then the encoder) when
`seq_len` fits, fails with a size error when `seq_len` exceeds the table
length, and with `learned_positions = 0` is exactly the pure sinusoidal
encoder. -/
theorem mixed_positional_encoder_spec {B S D L M : ℕ} (dropout : ℚ → ℚ)
    (encoder : Tensor3 B S D → Mask B S → Tensor3 B S D)
    (learned_encodings : Fin L → Fin D → ℚ) (pe : Fin M → Fin D → ℚ)
    (xx : Tensor3 B S D) (mask : Mask B S) :
    (∀ (i : Fin L) (d : Fin D),
      mixed_pos_embed learned_encodings pe (Fin.castAdd M i) d =
        learned_encodings i d) ∧
    (∀ (k : Fin M) (d : Fin D),
      mixed_pos_embed learned_encodings pe (Fin.natAdd L k) d = pe k d) ∧
    (∀ h : S ≤ L + M,
      mixed_forward dropout encoder learned_encodings pe xx mask =
        Except.ok (encoder
          (fun b s d => dropout (xx b s d +
            mixed_pos_embed learned_encodings pe (Fin.castLE h s) d))
          mask)) ∧
    (L + M < S →
      mixed_forward dropout encoder learned_encodings pe xx mask =
        Except.error "The size of tensor a must match the size of tensor b") ∧
    (∀ learned0 : Fin 0 → Fin D → ℚ,
      mixed_forward dropout encoder learned0 pe xx mask =
        sinusoidal_forward dropout encoder pe xx mask) := by
  refine ⟨?_, ?_, ?_, ?_, ?_⟩
  · intro i d
    simp [mixed_pos_embed, Fin.castAdd, Fin.is_lt]
  · intro k d
    have hk : ¬ ((Fin.natAdd L k : Fin (L + M)) : ℕ) < L := by
      simp [Fin.natAdd]
    simp only [mixed_pos_embed, hk, dif_neg, not_false_iff]
    congr 1
    ext
    simp [Fin.natAdd]
  · intro h
    rw [mixed_forward, dif_pos h]
  · intro h
    rw [mixed_forward, dif_neg (by omega)]
  · intro learned0
    rw [mixed_forward, sinusoidal_forward]
    by_cases h : S ≤ M
    · rw [dif_pos (by omega : S ≤ 0 + M), dif_pos h]
      congr 1
    · rw [dif_neg (by omega : ¬ S ≤ 0 + M), dif_neg h]

def wLearned : Fin 1 → Fin 1 → ℚ := fun _ _ => 4

def wPe : Fin 1 → Fin 1 → ℚ := fun _ _ => 9

def wPeEmpty : Fin 0 → Fin 1 → ℚ := fun i => i.elim0

def wInput : Tensor3 1 1 1 := fun _ _ _ => 2

def wMask : Mask 1 1 := fun _ _ => 1

/-- Witness for C10 at concrete inputs: an identity encoder and dropout
with a one-row learned table and a one-row fixed table (in-range case,
`S = 1 ≤ 1 + 1`), and an empty concatenated table (out-of-range case,
`0 + 0 < 1`). -/
theorem mixed_positional_encoder_spec_witness :
    ((1 : ℕ) ≤ 1 + 1 ∧
      mixed_forward (fun q => q) (fun yy _ => yy) wLearned wPe wInput wMask =
        Except.ok ((fun yy _ => yy)
          (fun b s d => (fun q => q) (wInput b s d +
            mixed_pos_embed wLearned wPe
              (Fin.castLE (by decide) s) d))
          wMask)) ∧
    (0 + 0 < 1 ∧
      mixed_forward (fun q => q) (fun yy _ => yy) wPeEmpty wPeEmpty wInput
          wMask =
        Except.error "The size of tensor a must match the size of tensor b") :=
  ⟨⟨by decide,
      (mixed_positional_encoder_spec (fun q => q) (fun yy _ => yy) wLearned
          wPe wInput wMask).2.2.1 (by decide)⟩,
    ⟨by decide,
      (mixed_positional_encoder_spec (fun q => q) (fun yy _ => yy) wPeEmpty
          wPeEmpty wInput wMask).2.2.2.1 (by decide)⟩⟩
